import Mathlib

set_option allowUnsafeReducibility true
attribute [local semireducible] Rat.inv Rat.mul Rat.sub Rat.add Rat.div Rat.neg

/-!
Shallow embedding of the reconciliation-and-signal-fusion pipeline of
`main.py` (Nansen ETH smart-money signal job).

Conventions of the embedding:
* dates (`ts`) are modelled as integers (day numbers);
* floating-point numbers are modelled as exact rationals `ℚ`;
* a nullable numeric cell tested only through `pd.isna` is an `Option ℚ`,
  with `none` standing for the null value; the exchange-flow cell, which
  the decision rule additionally tests with the Python `is None`, is
  modelled three-valued (`ExCell`): a float value, the float `NaN`, or the
  in-memory Python `None` — `pd.isna` is true for both `NaN` and `None`,
  while `is None` is true only for `None`;
* a pandas `DataFrame` persisted in a parquet file is the list of its rows
  in frame order; a file that has never been written is the empty list;
* `float('inf')` cannot arise in exact rational arithmetic (the only
  division whose denominator could vanish is guarded by the
  `replace(0, 1e-12)` step), so the source's `replace([inf, -inf], 0.0)`
  is the identity map of the model.
-/

namespace Nansen

/-- `ROLL_SPAN = 60` — EW rolling span for z-scores (`main.py`). -/
def ROLL_SPAN : ℕ := 60

/-- `MIN_PERIODS = 5` — minimum periods before z-scores start being
meaningful (`main.py`). -/
def MIN_PERIODS : ℕ := 5

/-! ### Time-series store: `read_parquet_safe` / `append_parquet` -/

/-- `read_parquet_safe(path)`: the rows currently persisted at `path`, or
the empty frame when the file does not exist.  The store state is already
"the rows of the file, `[]` when absent", so the reader returns it as is. -/
def read_parquet_safe {α : Type} (store : List α) : List α := store

/-- `DataFrame.drop_duplicates(subset=[key], keep="last")`: a row survives
exactly when no later row of the frame carries the same key; the surviving
rows keep their original relative order. -/
def dropDupKeepLast {α : Type} (key : α → ℤ) : List α → List α
  | [] => []
  | r :: t =>
    if t.any (fun x => key x == key r) then dropDupKeepLast key t
    else r :: dropDupKeepLast key t

/-- `append_parquet(df_new, path, dedupe_cols=("ts",))`: read the old frame,
concatenate the new rows after it, drop duplicate keys keeping the last
occurrence, persist the result (full overwrite) and return it.  Note the
source does **not** sort the merged frame. -/
def append_parquet {α : Type} (key : α → ℤ) (df_new : List α) (store : List α) : List α :=
  dropDupKeepLast key (read_parquet_safe store ++ df_new)

/-! ### Normalizer: `zscore_ewm` -/

/-- Decay factor `1 - α` where `α = 2 / (span + 1)` — pandas
`Series.ewm(span=span)` with the default `adjust=True`. -/
def ewmBeta (span : ℕ) : ℚ := 1 - 2 / ((span : ℚ) + 1)

/-- The non-null observations among the first `i + 1` entries of `series`,
paired with their positions.  Pandas default `ignore_na=False`: weights
decay with absolute position, so null rows still age the weights of the
earlier observations. -/
def obsUpTo (series : List (Option ℚ)) (i : ℕ) : List (ℕ × ℚ) :=
  (List.range (i + 1)).filterMap (fun j => (series.getD j none).map (fun x => (j, x)))

/-- Sum of the weights `β^(i-j)` of the observations contributing at `i`. -/
def wSum (span : ℕ) (series : List (Option ℚ)) (i : ℕ) : ℚ :=
  ((obsUpTo series i).map (fun p => ewmBeta span ^ (i - p.1))).sum

/-- Weighted sum `Σ β^(i-j) · x_j` of the observations contributing at `i`. -/
def wxSum (span : ℕ) (series : List (Option ℚ)) (i : ℕ) : ℚ :=
  ((obsUpTo series i).map (fun p => ewmBeta span ^ (i - p.1) * p.2)).sum

/-- Sum of the squared weights, used by the reliability ("bias") correction
of `ewm().std()`. -/
def w2Sum (span : ℕ) (series : List (Option ℚ)) (i : ℕ) : ℚ :=
  ((obsUpTo series i).map (fun p => (ewmBeta span ^ (i - p.1)) ^ 2)).sum

/-- `series.ewm(span=span, min_periods=min_periods).mean()` at index `i`:
the weighted mean of the observations seen so far, null until at least
`min_periods` non-null observations have been seen. -/
def ewmMean (span min_periods : ℕ) (series : List (Option ℚ)) (i : ℕ) : Option ℚ :=
  if min_periods ≤ (obsUpTo series i).length then
    some (wxSum span series i / wSum span series i)
  else none

/-- `series.ewm(span=span, min_periods=min_periods).var()` at index `i`
(default `bias=False`): the debiased weighted variance
`(Σw)²/((Σw)² - Σw²) · (Σ w·(x - m)²)/Σw`; null until `min_periods`
non-null observations have been seen, and also null while the debiasing
denominator `(Σw)² - Σw²` is zero (fewer than two observations — the
source library's `0/0` giving `NaN`). -/
def ewmVar (span min_periods : ℕ) (series : List (Option ℚ)) (i : ℕ) : Option ℚ :=
  if min_periods ≤ (obsUpTo series i).length ∧
      wSum span series i ^ 2 - w2Sum span series i ≠ 0 then
    some ((wSum span series i ^ 2 / (wSum span series i ^ 2 - w2Sum span series i)) *
      (((obsUpTo series i).map
        (fun p => ewmBeta span ^ (i - p.1) *
          (p.2 - wxSum span series i / wSum span series i) ^ 2)).sum / wSum span series i))
  else none

/-- `series.ewm(...).std()` at index `i`, the square root of `ewmVar`.
`Rat.sqrt` is the exact-arithmetic stand-in for the floating-point square
root: no verified claim depends on the magnitude of the standard deviation,
only on its nullness and on whether it is zero, which `Rat.sqrt` preserves
(a non-negative variance has numerator `0` exactly when it is `0`). -/
def ewmStd (span min_periods : ℕ) (series : List (Option ℚ)) (i : ℕ) : Option ℚ :=
  (ewmVar span min_periods series i).map Rat.sqrt

/-- The z-score column before the final `fillna`: the source's
`z = (series - mean) / std` computed after `std.replace(0, 1e-12)`, with
pandas null propagation — a null input value, a not-yet-warm mean or a
null standard deviation all give a null z. -/
def zscore_raw (span min_periods : ℕ) (series : List (Option ℚ)) : List (Option ℚ) :=
  (List.range series.length).map (fun i =>
    match series.getD i none, ewmMean span min_periods series i,
      (ewmStd span min_periods series i).map (fun s => if s = 0 then 1 / 10 ^ 12 else s) with
    | some x, some m, some s => some ((x - m) / s)
    | _, _, _ => none)

/-- `zscore_ewm(series, span, min_periods)` after its trailing
`.fillna(0.0).replace([inf, -inf], 0.0)`: every null z-score becomes `0`;
infinite values do not exist in exact rational arithmetic, so the
`replace` step is the identity. -/
def zscore_ewm (span min_periods : ℕ) (series : List (Option ℚ)) : List ℚ :=
  (zscore_raw span min_periods series).map (fun z => z.getD 0)

/-! ### Price returns: `Series.pct_change` -/

/-- `Series.pct_change(k, fill_method=None)`: `x[i]/x[i-k] - 1`, null for
the first `k` positions and whenever either operand is null (no forward- or
back-filling). -/
def pct_change (k : ℕ) (xs : List (Option ℚ)) : List (Option ℚ) :=
  (List.range xs.length).map (fun i =>
    if k ≤ i then
      match xs.getD i none, xs.getD (i - k) none with
      | some a, some b => some (a / b - 1)
      | _, _ => none
    else none)

/-! ### Series rows -/

/-- A row of the smart-money series (`fetch_smart_money_inflows_eth` and
the seed rows of `main`). -/
structure SMRow where
  ts : ℤ
  symbol : String
  volume24hUSD : ℚ
  volume7dUSD : ℚ
  volume30dUSD : ℚ
deriving DecidableEq

/-- A pandas cell of the `exchange_flow_usd` column.  Unlike the other
numeric columns — which the decision rule only ever tests through
`pd.isna`, so a single null value suffices — this cell is also tested with
the Python `is None`, which distinguishes the two null representations:

* `val x` — an ordinary float value;
* `nan` — the float `NaN`: the form a missing value takes from the outer
  join (a date with no exchange-flow row) and the form a stored null takes
  after a parquet round trip of a float column; `NaN is None` is `False`
  and `NaN <= 0` is `False`;
* `pyNone` — the in-memory Python `None` that
  `fetch_flow_intelligence_eth` puts in the frame when the fetch fails,
  before any parquet round trip; `None is None` is `True`. -/
inductive ExCell where
  | val (x : ℚ)
  | nan
  | pyNone
deriving DecidableEq

/-- A row of the exchange-flow series (`fetch_flow_intelligence_eth`); the
flow value itself may be null, in either representation. -/
structure ExRow where
  ts : ℤ
  exchange_flow_usd : ExCell
deriving DecidableEq

/-- A row of the price series (`fetch_kraken_price_eth`). -/
structure PxRow where
  ts : ℤ
  price_usd : ℚ
deriving DecidableEq

/-! ### The row-wise decision rule `decide` of `build_signal` -/

/-- The three columns of a merged-frame row that `decide` inspects.  The
z-score and return cells are only ever tested through `pd.isna`, so they
are plain options; the exchange-flow cell keeps its three-valued
representation because `decide` tests it with `is None`. -/
structure DecideRow where
  sm_7d_z : Option ℚ
  px_ret_7d : Option ℚ
  exchange_flow_usd : ExCell
deriving DecidableEq

/-- The `(row.get("exchange_flow_usd") is None) or (row["exchange_flow_usd"] <= 0)`
guard of the bullish branch.  Only the in-memory Python `None` passes the
`is None` test; the float `NaN` fails it, and `NaN <= 0` is also `False`,
so a `NaN`-represented null fails the whole guard. -/
def exchangeFlowOk : ExCell → Bool
  | ExCell.pyNone => true
  | ExCell.nan => false
  | ExCell.val e => if e ≤ 0 then true else false

/-- The nested `decide(row)` of `build_signal`: first the missing-data guard
(`pd.isna` on the 7-day smart-money z-score or on the 7-day return gives
"hold"), then the bullish branch (`sm_7d_z > 1.5`, `px_ret_7d <= 0` — the
source's extra `px_ret_7d is not None` test is subsumed by the first
guard — and the exchange-flow guard of `exchangeFlowOk` give "long"; the
nested exchange-flow `if` of the source is flattened into the conjunction,
which is sound because `return "long"` is the only exit of the outer
branch), then the bearish branch (`sm_7d_z < 0` gives "flat"), otherwise
"hold".  Note the asymmetry the exchange-flow guard introduces: a
`NaN`-represented null exchange flow fails `is None` and `<= 0` alike and
therefore blocks "long". -/
def decide (r : DecideRow) : String :=
  match r.sm_7d_z, r.px_ret_7d with
  | none, _ => "hold"
  | _, none => "hold"
  | some z, some ret =>
    if (3 / 2 < z ∧ ret ≤ 0) ∧ exchangeFlowOk r.exchange_flow_usd = true then "long"
    else if z < 0 then "flat"
    else "hold"

/-! ### The signal fusion engine `build_signal` -/

/-- The index of
`sm.set_index("ts").join(ex…, how="outer").join(px…, how="outer").sort_index()`:
the union of the three date sets, sorted ascending. -/
def join_dates (sm : List SMRow) (ex : List ExRow) (px : List PxRow) : List ℤ :=
  List.insertionSort (fun a b => a ≤ b)
    ((sm.map SMRow.ts ++ ex.map ExRow.ts ++ px.map PxRow.ts).dedup)

/-- A smart-money column after the outer join: the field value at each
date, null when the series has no row for that date. -/
def smCol (f : SMRow → ℚ) (sm : List SMRow) (dates : List ℤ) : List (Option ℚ) :=
  dates.map (fun d => (sm.find? (fun r => r.ts == d)).map f)

/-- The `price_usd` column after the outer join. -/
def pxCol (px : List PxRow) (dates : List ℤ) : List (Option ℚ) :=
  dates.map (fun d => (px.find? (fun r => r.ts == d)).map PxRow.price_usd)

/-- The `exchange_flow_usd` column after the outer join: a date with no
exchange-flow row gets the float `NaN` (that is how an outer join fills
missing cells, whatever the column's dtype); a date with a row contributes
that row's cell as it stands — a float value, a round-tripped `NaN`, or
the in-memory `None` of a same-run failed fetch. -/
def exCol (ex : List ExRow) (dates : List ℤ) : List ExCell :=
  dates.map (fun d =>
    match ex.find? (fun r => r.ts == d) with
    | some r => r.exchange_flow_usd
    | none => ExCell.nan)

/-- A row of the signal table returned by `build_signal` (after
`reset_index`).  The four z-score columns come out of `zscore_ewm`, hence
are float columns without nulls; the embedding records them as
`some`-valued options so that "non-null" stays a statable property of the
output, and records the divergences (differences of those columns) as
plain rationals. -/
structure SignalRow where
  ts : ℤ
  volume7dUSD : Option ℚ
  volume30dUSD : Option ℚ
  exchange_flow_usd : ExCell
  price_usd : Option ℚ
  px_ret_7d : Option ℚ
  px_ret_30d : Option ℚ
  sm_7d_z : Option ℚ
  sm_30d_z : Option ℚ
  px_ret_7d_z : Option ℚ
  px_ret_30d_z : Option ℚ
  divergence_7d : ℚ
  divergence_30d : ℚ
  signal : String
deriving DecidableEq

/-- The `i`-th row assembled by `build_signal` from the joined columns. -/
def signal_row (dates : List ℤ) (v7 v30 : List (Option ℚ)) (exf : List ExCell)
    (price ret7 ret30 : List (Option ℚ))
    (z7 z30 zr7 zr30 : List ℚ) (i : ℕ) : SignalRow :=
  { ts := dates.getD i 0
    volume7dUSD := v7.getD i none
    volume30dUSD := v30.getD i none
    exchange_flow_usd := exf.getD i ExCell.nan
    price_usd := price.getD i none
    px_ret_7d := ret7.getD i none
    px_ret_30d := ret30.getD i none
    sm_7d_z := some (z7.getD i 0)
    sm_30d_z := some (z30.getD i 0)
    px_ret_7d_z := some (zr7.getD i 0)
    px_ret_30d_z := some (zr30.getD i 0)
    divergence_7d := z7.getD i 0 - zr7.getD i 0
    divergence_30d := z30.getD i 0 - zr30.getD i 0
    signal := decide
      { sm_7d_z := some (z7.getD i 0)
        px_ret_7d := ret7.getD i none
        exchange_flow_usd := exf.getD i ExCell.nan } }

/-- `build_signal(sm_df, ex_df, px_df)`: outer-join the three series on
`ts`, sort ascending by date, compute the 7/30-day price returns, the four
EW z-scores, the two divergences, and the row-wise signal. -/
def build_signal (sm : List SMRow) (ex : List ExRow) (px : List PxRow) : List SignalRow :=
  let dates := join_dates sm ex px
  let price := pxCol px dates
  let ret7 := pct_change 7 price
  let ret30 := pct_change 30 price
  let z7 := zscore_ewm ROLL_SPAN MIN_PERIODS (smCol SMRow.volume7dUSD sm dates)
  let z30 := zscore_ewm ROLL_SPAN MIN_PERIODS (smCol SMRow.volume30dUSD sm dates)
  let zr7 := zscore_ewm ROLL_SPAN MIN_PERIODS ret7
  let zr30 := zscore_ewm ROLL_SPAN MIN_PERIODS ret30
  (List.range dates.length).map
    (signal_row dates (smCol SMRow.volume7dUSD sm dates)
      (smCol SMRow.volume30dUSD sm dates) (exCol ex dates) price ret7 ret30
      z7 z30 zr7 zr30)

/-! ### The orchestrator fragments of `main` -/

/-- The six synthetic zero rows that `main` seeds for the six days
immediately preceding today (`for i in range(6, 0, -1)`). -/
def seed_rows (today : ℤ) : List SMRow :=
  ([6, 5, 4, 3, 2, 1] : List ℤ).map (fun i =>
    { ts := today - i
      symbol := "ETH/WETH"
      volume24hUSD := 0
      volume7dUSD := 0
      volume30dUSD := 0 })

/-- The smart-money branch of `main`: append the freshly fetched row, then,
exactly when the resulting series has a single row (first-ever run), append
the six seed rows. -/
def sm_update (store : List SMRow) (today : ℤ) (fetched : SMRow) : List SMRow :=
  let sm_all := append_parquet SMRow.ts [fetched] store
  if sm_all.length = 1 then append_parquet SMRow.ts (seed_rows today) sm_all
  else sm_all

/-- The caller's extraction of today's signal row in `main`:
`signals_all[signals_all["ts"] == TODAY]`, falling back to
`signals_all.tail(1)` when that selection is empty, followed by
`.iloc[-1]`. -/
def extract_today_row (signals_all : List SignalRow) (today : ℤ) : Option SignalRow :=
  let today_sig := signals_all.filter (fun r => r.ts == today)
  if today_sig.isEmpty then signals_all.getLast? else today_sig.getLast?

/-! ## Helper lemmas -/

/-- Reading a mapped range at an in-bounds index. -/
theorem getD_map_range {β : Type} (f : ℕ → β) {n i : ℕ} (d : β) (h : i < n) :
    ((List.range n).map f).getD i d = f i := by
  rw [List.getD_eq_getElem?_getD, List.getElem?_map, List.getElem?_range h]
  rfl

/-- Reading a mapped range at an out-of-bounds index gives the default. -/
theorem getD_map_range_of_ge {β : Type} (f : ℕ → β) {n i : ℕ} (d : β) (h : n ≤ i) :
    ((List.range n).map f).getD i d = d := by
  rw [List.getD_eq_getElem?_getD, List.getElem?_eq_none (by simpa using h)]
  rfl

/-- The deduplicated frame is a sublist of the original frame: surviving
rows keep their relative order, nothing is reordered. -/
theorem dropDupKeepLast_sublist {α : Type} (key : α → ℤ) (l : List α) :
    List.Sublist (dropDupKeepLast key l) l := by
  induction l with
  | nil => exact List.Sublist.refl []
  | cons r t ih =>
    unfold dropDupKeepLast
    by_cases h : t.any (fun x => key x == key r) = true
    · rw [if_pos h]
      exact ih.cons r
    · rw [if_neg h]
      exact ih.cons₂ r

/-- After deduplication every key appears at most once. -/
theorem dropDupKeepLast_keys_nodup {α : Type} (key : α → ℤ) (l : List α) :
    ((dropDupKeepLast key l).map key).Nodup := by
  induction l with
  | nil => simp [dropDupKeepLast]
  | cons r t ih =>
    unfold dropDupKeepLast
    by_cases h : t.any (fun x => key x == key r) = true
    · rw [if_pos h]
      exact ih
    · rw [if_neg h]
      simp only [List.map_cons, List.nodup_cons]
      refine ⟨?_, ih⟩
      intro hmem
      rcases List.mem_map.mp hmem with ⟨x, hx, hkx⟩
      exact h (List.any_eq_true.mpr
        ⟨x, (dropDupKeepLast_sublist key t).subset hx, by simp [hkx]⟩)

/-- Appending one row: the new row always survives at the end, evicting
exactly the previously surviving row that carries its key. -/
theorem dropDupKeepLast_append_singleton {α : Type} (key : α → ℤ) (r : α)
    (l : List α) :
    dropDupKeepLast key (l ++ [r])
      = (dropDupKeepLast key l).filter (fun x => !(key x == key r)) ++ [r] := by
  induction l with
  | nil => simp [dropDupKeepLast]
  | cons a t ih =>
    simp only [List.cons_append, dropDupKeepLast, ih, List.append_eq, List.any_append,
      List.any_cons, List.any_nil, Bool.or_false]
    by_cases har : key a = key r
    · have h1 : (key r == key a) = true := by simp [har]
      rw [h1, Bool.or_true, if_pos rfl]
      by_cases ht : t.any (fun x => key x == key a) = true
      · rw [if_pos ht]
      · rw [if_neg ht]
        simp [List.filter_cons, har]
    · have h1 : (key r == key a) = false := by simp [Ne.symm har]
      rw [h1, Bool.or_false]
      by_cases ht : t.any (fun x => key x == key a) = true
      · rw [if_pos ht, if_pos ht]
      · rw [if_neg ht, if_neg ht]
        simp [List.filter_cons, har]

/-- A frame whose keys are already pairwise distinct is left unchanged by
deduplication. -/
theorem dropDupKeepLast_eq_self {α : Type} (key : α → ℤ) (l : List α)
    (h : (l.map key).Nodup) : dropDupKeepLast key l = l := by
  induction l with
  | nil => rfl
  | cons a t ih =>
    simp only [List.map_cons, List.nodup_cons] at h
    have hany : t.any (fun x => key x == key a) = false := by
      cases hx : t.any (fun x => key x == key a) with
      | false => rfl
      | true =>
        rcases List.any_eq_true.mp hx with ⟨x, hxt, hk⟩
        exact absurd (List.mem_map.mpr ⟨x, hxt, by simpa using hk⟩) h.1
    unfold dropDupKeepLast
    rw [if_neg (by simp [hany]), ih h.2]

/-! ## Claim theorems -/

/-- C1 counterexample: a row whose smart-money z-score exceeds 1.5 and
whose return is 0 but whose exchange-flow cell is the `NaN`-represented
null — the form every outer-join-missing or parquet-round-tripped null
takes — is classified "hold", not "long": `NaN is None` is `False` and
`NaN <= 0` is `False`, so the null blocks the "long" classification. -/
theorem decide_nan_exchange_flow_blocks_long_counterexample :
    decide
        { sm_7d_z := some 2, px_ret_7d := some 0,
          exchange_flow_usd := ExCell.nan } = "hold" ∧
    decide
        { sm_7d_z := some 2, px_ret_7d := some 0,
          exchange_flow_usd := ExCell.nan } ≠ "long" := by
  decide

/-- C1 (amended): for a row whose 7-day smart-money z-score is non-null
and greater than 1.5 and whose 7-day return is non-null and at most 0, the
decision is "long" exactly when the exchange-flow cell passes the source's
`is None`-or-`<= 0` guard: when it is the in-memory Python `None` of a
same-run failed fetch, or a float value at most 0.  A `NaN`-represented
null — the form a missing exchange-flow value takes from the outer join or
after a parquet round trip — fails both tests of the guard, blocks the
"long" classification, and leaves the row at "hold". -/
theorem decide_long_iff_exchange_flow_guard (z ret : ℚ) (ef : ExCell)
    (hz : 3 / 2 < z) (hret : ret ≤ 0) :
    (decide { sm_7d_z := some z, px_ret_7d := some ret, exchange_flow_usd := ef }
        = "long"
      ↔ ef = ExCell.pyNone ∨ ∃ e, ef = ExCell.val e ∧ e ≤ 0) ∧
    (ef = ExCell.nan →
      decide { sm_7d_z := some z, px_ret_7d := some ret, exchange_flow_usd := ef }
        = "hold") := by
  have hz0 : ¬ z < 0 := by linarith
  constructor
  · show (if (3 / 2 < z ∧ ret ≤ 0) ∧ exchangeFlowOk ef = true then "long"
        else if z < 0 then "flat" else "hold") = "long" ↔ _
    cases ef with
    | pyNone =>
      rw [if_pos ⟨⟨hz, hret⟩, rfl⟩]
      exact iff_of_true rfl (Or.inl rfl)
    | nan =>
      rw [if_neg (by simp [exchangeFlowOk]), if_neg hz0]
      exact iff_of_false (by decide) (by simp)
    | val e =>
      by_cases he : e ≤ 0
      · have hok : exchangeFlowOk (ExCell.val e) = true := by
          simp [exchangeFlowOk, he]
        rw [if_pos ⟨⟨hz, hret⟩, hok⟩]
        exact iff_of_true rfl (Or.inr ⟨e, rfl, he⟩)
      · have hok : exchangeFlowOk (ExCell.val e) = false := by
          simp [exchangeFlowOk, he]
        rw [if_neg (by simp [hok]), if_neg hz0]
        exact iff_of_false (by decide) (by simp [he])
  · intro hnan
    subst hnan
    show (if (3 / 2 < z ∧ ret ≤ 0) ∧ exchangeFlowOk ExCell.nan = true then "long"
        else if z < 0 then "flat" else "hold") = "hold"
    rw [if_neg (by simp [exchangeFlowOk]), if_neg hz0]

/-- Witness for the amended C1: the Python-`None` cell yields "long", the
`NaN` cell yields "hold", at the same z-score and return. -/
theorem decide_long_iff_exchange_flow_guard_witness :
    ((3 : ℚ) / 2 < 2 ∧ (0 : ℚ) ≤ 0) ∧
    decide
        { sm_7d_z := some 2, px_ret_7d := some 0,
          exchange_flow_usd := ExCell.pyNone } = "long" ∧
    decide
        { sm_7d_z := some 2, px_ret_7d := some 0,
          exchange_flow_usd := ExCell.nan } = "hold" :=
  ⟨⟨by decide, by decide⟩,
    (decide_long_iff_exchange_flow_guard 2 0 ExCell.pyNone (by decide)
        (by decide)).1.mpr (Or.inl rfl),
    (decide_long_iff_exchange_flow_guard 2 0 ExCell.nan (by decide)
        (by decide)).2 rfl⟩

/-- C4: a row with a null 7-day smart-money z-score or a null 7-day return
is classified "hold" by the first branch of the decision rule, before any
other branch is consulted — even when every other column would qualify the
row for "long". -/
theorem decide_hold_of_missing (r : DecideRow)
    (h : r.sm_7d_z = none ∨ r.px_ret_7d = none) : decide r = "hold" := by
  unfold decide
  rcases h with h | h
  · rw [h]
    cases r.px_ret_7d <;> rfl
  · rw [h]
    cases r.sm_7d_z <;> rfl

/-- Witness for C4: the return is missing while the smart-money z-score and
the exchange flow would otherwise qualify the row for "long". -/
theorem decide_hold_of_missing_witness :
    decide
        { sm_7d_z := some 2, px_ret_7d := none,
          exchange_flow_usd := ExCell.pyNone } = "hold" :=
  decide_hold_of_missing
    { sm_7d_z := some 2, px_ret_7d := none, exchange_flow_usd := ExCell.pyNone }
    (Or.inr rfl)

/-- C10: for a row whose 7-day smart-money z-score and 7-day return are
both non-null, the decision rule returns "flat" exactly when the z-score is
strictly negative: the "long" branch requires `z > 1.5`, which is
incompatible with `z < 0`, so the two branches never compete — in every
representation of the exchange-flow cell. -/
theorem decide_flat_iff_neg_z (z ret : ℚ) (ef : ExCell) :
    decide { sm_7d_z := some z, px_ret_7d := some ret, exchange_flow_usd := ef }
      = "flat" ↔ z < 0 := by
  show (if (3 / 2 < z ∧ ret ≤ 0) ∧ exchangeFlowOk ef = true then "long"
      else if z < 0 then "flat" else "hold") = "flat" ↔ z < 0
  by_cases hc : (3 / 2 < z ∧ ret ≤ 0) ∧ exchangeFlowOk ef = true
  · rw [if_pos hc]
    obtain ⟨⟨h1, _⟩, _⟩ := hc
    constructor
    · intro habs
      exact absurd habs (by decide)
    · intro hneg
      exact ((by linarith : False)).elim
  · rw [if_neg hc]
    by_cases hz : z < 0
    · rw [if_pos hz]
      exact iff_of_true rfl hz
    · rw [if_neg hz]
      exact iff_of_false (by decide) hz

/-- C2 counterexample: two appends in descending date order leave the
store unsorted — `append_parquet` performs no sort, so the sequence it
returns (and a later read observes) is not ascending by date. -/
theorem append_parquet_unsorted_counterexample :
    ¬ List.Pairwise (fun a b : PxRow => a.ts ≤ b.ts)
      (read_parquet_safe
        (append_parquet PxRow.ts [{ ts := 0, price_usd := 9 }]
          (append_parquet PxRow.ts [{ ts := 1, price_usd := 5 }] []))) := by
  decide

/-- C2 (amended): `append_parquet` returns the concatenation-order
keep-last dedupe and does not sort, so the store is sorted ascending by
date exactly in the in-order regime: when the already-stored rows are
sorted, the new batch is sorted, and no new row predates a stored row, the
merged (and later re-read) sequence is again sorted ascending. -/
theorem append_parquet_sorted_of_in_order {α : Type} (key : α → ℤ)
    (df_new store : List α)
    (hstore : List.Pairwise (fun a b => key a ≤ key b) store)
    (hnew : List.Pairwise (fun a b => key a ≤ key b) df_new)
    (horder : ∀ a ∈ store, ∀ b ∈ df_new, key a ≤ key b) :
    List.Pairwise (fun a b => key a ≤ key b)
      (read_parquet_safe (append_parquet key df_new store)) :=
  List.Pairwise.sublist (dropDupKeepLast_sublist key (store ++ df_new))
    (List.pairwise_append.mpr ⟨hstore, hnew, horder⟩)

/-- Witness for the amended C2 on a concrete in-order pair of appends. -/
theorem append_parquet_sorted_of_in_order_witness :
    List.Pairwise (fun a b : PxRow => PxRow.ts a ≤ PxRow.ts b)
      (read_parquet_safe
        (append_parquet PxRow.ts [{ ts := 2, price_usd := 7 }]
          [{ ts := 0, price_usd := 5 }, { ts := 1, price_usd := 6 }])) :=
  append_parquet_sorted_of_in_order PxRow.ts
    [{ ts := 2, price_usd := 7 }]
    [{ ts := 0, price_usd := 5 }, { ts := 1, price_usd := 6 }]
    (by decide) (by decide) (by decide)

/-- C5: the store merge is last-write-wins: appending rows for dates
d1 ↦ 5 and d2 ↦ 7 to any prior store and then appending d1 ↦ 9 leaves
exactly one row for d1, carrying 9, exactly one row for d2, carrying 7,
and no duplicated date key anywhere in the merged series. -/
theorem append_parquet_last_write_wins (store : List PxRow) (d1 d2 : ℤ)
    (hne : d1 ≠ d2) :
    ((append_parquet PxRow.ts [{ ts := d1, price_usd := 9 }]
        (append_parquet PxRow.ts
          [{ ts := d1, price_usd := 5 }, { ts := d2, price_usd := 7 }] store)).filter
        (fun r => r.ts == d1)) = [{ ts := d1, price_usd := 9 }] ∧
    ((append_parquet PxRow.ts [{ ts := d1, price_usd := 9 }]
        (append_parquet PxRow.ts
          [{ ts := d1, price_usd := 5 }, { ts := d2, price_usd := 7 }] store)).filter
        (fun r => r.ts == d2)) = [{ ts := d2, price_usd := 7 }] ∧
    ((append_parquet PxRow.ts [{ ts := d1, price_usd := 9 }]
        (append_parquet PxRow.ts
          [{ ts := d1, price_usd := 5 }, { ts := d2, price_usd := 7 }] store)).map
        PxRow.ts).Nodup := by
  have h12 : ((d1 : ℤ) == d2) = false := by simp [hne]
  have h21 : ((d2 : ℤ) == d1) = false := by simp [Ne.symm hne]
  have hkeys := dropDupKeepLast_keys_nodup PxRow.ts
    (store ++ [({ ts := d1, price_usd := 5 } : PxRow), { ts := d2, price_usd := 7 }])
  have e1 : append_parquet PxRow.ts
        [({ ts := d1, price_usd := 5 } : PxRow), { ts := d2, price_usd := 7 }] store
      = ((dropDupKeepLast PxRow.ts store).filter (fun x => !(x.ts == d1))).filter
          (fun x => !(x.ts == d2))
        ++ [{ ts := d1, price_usd := 5 }] ++ [{ ts := d2, price_usd := 7 }] := by
    show dropDupKeepLast PxRow.ts
        (store ++ [({ ts := d1, price_usd := 5 } : PxRow), { ts := d2, price_usd := 7 }]) = _
    rw [show store ++ [({ ts := d1, price_usd := 5 } : PxRow), { ts := d2, price_usd := 7 }]
        = (store ++ [({ ts := d1, price_usd := 5 } : PxRow)])
          ++ [({ ts := d2, price_usd := 7 } : PxRow)] by simp]
    rw [dropDupKeepLast_append_singleton, dropDupKeepLast_append_singleton]
    simp [List.filter_append, List.filter_cons, h12]
  have e2 : dropDupKeepLast PxRow.ts
        (append_parquet PxRow.ts
          [({ ts := d1, price_usd := 5 } : PxRow), { ts := d2, price_usd := 7 }] store)
      = append_parquet PxRow.ts
          [({ ts := d1, price_usd := 5 } : PxRow), { ts := d2, price_usd := 7 }] store :=
    dropDupKeepLast_eq_self PxRow.ts _ hkeys
  have e3 : append_parquet PxRow.ts [({ ts := d1, price_usd := 9 } : PxRow)]
        (append_parquet PxRow.ts
          [({ ts := d1, price_usd := 5 } : PxRow), { ts := d2, price_usd := 7 }] store)
      = (((dropDupKeepLast PxRow.ts store).filter (fun x => !(x.ts == d1))).filter
            (fun x => !(x.ts == d2))).filter (fun x => !(x.ts == d1))
        ++ [{ ts := d2, price_usd := 7 }] ++ [{ ts := d1, price_usd := 9 }] := by
    show dropDupKeepLast PxRow.ts
        (append_parquet PxRow.ts
          [({ ts := d1, price_usd := 5 } : PxRow), { ts := d2, price_usd := 7 }] store
          ++ [({ ts := d1, price_usd := 9 } : PxRow)]) = _
    rw [dropDupKeepLast_append_singleton, e2, e1]
    simp [List.filter_append, List.filter_cons, h21]
  refine ⟨?_, ?_, ?_⟩
  · rw [e3]
    simp [List.filter_append, List.filter_cons, h21]
    exact fun a _ h1 h2 _ => absurd h1 h2
  · rw [e3]
    simp [List.filter_append, List.filter_cons, h12]
    exact fun a _ h1 _ h3 => absurd h1 h3
  · exact dropDupKeepLast_keys_nodup PxRow.ts _

/-- Witness for C5 at concrete dates 0 and 1 over the empty store. -/
theorem append_parquet_last_write_wins_witness :
    ((0 : ℤ) ≠ 1) ∧
      ((append_parquet PxRow.ts [{ ts := 0, price_usd := 9 }]
        (append_parquet PxRow.ts
          [{ ts := 0, price_usd := 5 }, { ts := 1, price_usd := 7 }] [])).filter
        (fun r => r.ts == 0)) = [{ ts := 0, price_usd := 9 }] :=
  ⟨by decide, (append_parquet_last_write_wins [] 0 1 (by decide)).1⟩

/-- C6: cold-start seeding fires exactly once: starting from the empty
store, appending one today-dated row leaves a single row, and the update
then creates exactly the six synthetic zero-valued rows dated the six days
immediately preceding; whenever the appended series no longer has length
1, the update is the plain append and no seeding is triggered. -/
theorem sm_update_seeds_once (store : List SMRow) (today : ℤ) (fetched : SMRow) :
    (fetched.ts = today →
      sm_update [] today fetched = fetched :: seed_rows today ∧
      seed_rows today =
        [{ ts := today - 6, symbol := "ETH/WETH", volume24hUSD := 0,
           volume7dUSD := 0, volume30dUSD := 0 },
         { ts := today - 5, symbol := "ETH/WETH", volume24hUSD := 0,
           volume7dUSD := 0, volume30dUSD := 0 },
         { ts := today - 4, symbol := "ETH/WETH", volume24hUSD := 0,
           volume7dUSD := 0, volume30dUSD := 0 },
         { ts := today - 3, symbol := "ETH/WETH", volume24hUSD := 0,
           volume7dUSD := 0, volume30dUSD := 0 },
         { ts := today - 2, symbol := "ETH/WETH", volume24hUSD := 0,
           volume7dUSD := 0, volume30dUSD := 0 },
         { ts := today - 1, symbol := "ETH/WETH", volume24hUSD := 0,
           volume7dUSD := 0, volume30dUSD := 0 }]) ∧
    ((append_parquet SMRow.ts [fetched] store).length ≠ 1 →
      sm_update store today fetched = append_parquet SMRow.ts [fetched] store) := by
  constructor
  · intro hts
    subst hts
    refine ⟨?_, rfl⟩
    have hnodup : (([fetched] ++ seed_rows fetched.ts).map SMRow.ts).Nodup := by
      simp [seed_rows]
      omega
    have hself := dropDupKeepLast_eq_self SMRow.ts
      ([fetched] ++ seed_rows fetched.ts) hnodup
    show dropDupKeepLast SMRow.ts ([fetched] ++ seed_rows fetched.ts)
      = fetched :: seed_rows fetched.ts
    rw [hself]
    rfl
  · intro h
    simp only [sm_update]
    rw [if_neg h]

/-- Witness for C6: a concrete first run over the empty store and a
concrete later run over a two-row store. -/
theorem sm_update_seeds_once_witness :
    sm_update [] 100
        { ts := 100, symbol := "ETH_BASKET_MULTI",
          volume24hUSD := 1, volume7dUSD := 2, volume30dUSD := 3 }
      = { ts := 100, symbol := "ETH_BASKET_MULTI",
          volume24hUSD := 1, volume7dUSD := 2, volume30dUSD := 3 } :: seed_rows 100 ∧
    (append_parquet SMRow.ts
        [{ ts := 101, symbol := "ETH_BASKET_MULTI",
           volume24hUSD := 1, volume7dUSD := 2, volume30dUSD := 3 }]
        (sm_update [] 100
          { ts := 100, symbol := "ETH_BASKET_MULTI",
            volume24hUSD := 1, volume7dUSD := 2, volume30dUSD := 3 })).length ≠ 1 ∧
    sm_update
        (sm_update [] 100
          { ts := 100, symbol := "ETH_BASKET_MULTI",
            volume24hUSD := 1, volume7dUSD := 2, volume30dUSD := 3 }) 101
        { ts := 101, symbol := "ETH_BASKET_MULTI",
          volume24hUSD := 1, volume7dUSD := 2, volume30dUSD := 3 }
      = append_parquet SMRow.ts
        [{ ts := 101, symbol := "ETH_BASKET_MULTI",
           volume24hUSD := 1, volume7dUSD := 2, volume30dUSD := 3 }]
        (sm_update [] 100
          { ts := 100, symbol := "ETH_BASKET_MULTI",
            volume24hUSD := 1, volume7dUSD := 2, volume30dUSD := 3 }) :=
  ⟨((sm_update_seeds_once [] 100 _).1 rfl).1,
   by decide,
   (sm_update_seeds_once _ 101 _).2 (by decide)⟩

/-- C3: the normalizer is total: the output has exactly the input's length,
its entries are plain rationals (so no null, and in exact arithmetic no
non-finite value, can occur), and every position whose raw z-score (before
the final `fillna`) is null is 0 in the output. -/
theorem zscore_ewm_total (span min_periods : ℕ) (xs : List (Option ℚ)) :
    (zscore_ewm span min_periods xs).length = xs.length ∧
    ∀ i, i < xs.length →
      (zscore_raw span min_periods xs).getD i none = none →
      (zscore_ewm span min_periods xs).getD i 0 = 0 := by
  constructor
  · simp [zscore_ewm, zscore_raw]
  · intro i hi hraw
    unfold zscore_ewm
    rw [List.getD_eq_getElem?_getD, List.getElem?_map]
    rw [List.getD_eq_getElem?_getD] at hraw
    cases hx : (zscore_raw span min_periods xs)[i]? with
    | none => rfl
    | some v =>
      rw [hx] at hraw
      cases v with
      | none => rfl
      | some q => simp at hraw

/-- Witness for C3 on the all-null singleton series. -/
theorem zscore_ewm_total_witness :
    ((0 : ℕ) < ([none] : List (Option ℚ)).length ∧
      (zscore_raw ROLL_SPAN MIN_PERIODS [none]).getD 0 none = none) ∧
    (zscore_ewm ROLL_SPAN MIN_PERIODS [none]).getD 0 0 = 0 :=
  ⟨⟨by decide, by decide⟩,
    (zscore_ewm_total ROLL_SPAN MIN_PERIODS [none]).2 0 (by decide) (by decide)⟩

/-- C7: the k-day trailing return at index `i` is `price[i]/price[i-k] - 1`
when `k` prior observations exist and null in the first `k` positions (no
forward- or back-filling); concretely, for the price series
100, 105, 110, 112, 114, 116, 118, 120 the 7-day return at index 7 (day 8)
is 1/5 = 20 % and at index 6 (day 7) it is null. -/
theorem pct_change_correct (k : ℕ) (xs : List (Option ℚ)) (i : ℕ) :
    (i < k → (pct_change k xs).getD i none = none) ∧
    (∀ a b, k ≤ i → i < xs.length →
      xs.getD i none = some a → xs.getD (i - k) none = some b →
      (pct_change k xs).getD i none = some (a / b - 1)) ∧
    (pct_change 7
        (([100, 105, 110, 112, 114, 116, 118, 120] : List ℚ).map some)).getD 7 none
      = some (1 / 5) ∧
    (pct_change 7
        (([100, 105, 110, 112, 114, 116, 118, 120] : List ℚ).map some)).getD 6 none
      = none := by
  refine ⟨?_, ?_, by decide, by decide⟩
  · intro hik
    by_cases hi : i < xs.length
    · unfold pct_change
      rw [getD_map_range _ none hi, if_neg (by omega)]
    · unfold pct_change
      rw [getD_map_range_of_ge _ none (by omega)]
  · intro a b hki hi ha hb
    unfold pct_change
    rw [getD_map_range _ none hi, if_pos hki, ha, hb]

/-- Witness for C7: both the warm-up clause and the value clause at
concrete inputs. -/
theorem pct_change_correct_witness :
    ((2 : ℕ) < 7 ∧ (pct_change 7 [some (1 : ℚ), some 2, some 3]).getD 2 none = none) ∧
    ((7 : ℕ) ≤ 7 ∧
      (pct_change 7
          (([100, 105, 110, 112, 114, 116, 118, 120] : List ℚ).map some)).getD 7 none
        = some ((120 : ℚ) / 100 - 1)) :=
  ⟨⟨by decide, (pct_change_correct 7 [some 1, some 2, some 3] 2).1 (by decide)⟩,
   ⟨by decide,
     (pct_change_correct 7
         (([100, 105, 110, 112, 114, 116, 118, 120] : List ℚ).map some) 7).2.1
       120 100 (by decide) (by decide) (by decide) (by decide)⟩⟩

/-- The signal table is sorted ascending by date: `build_signal` sorts the
joined dates before assembling the rows. -/
theorem build_signal_ts_sorted (sm : List SMRow) (ex : List ExRow) (px : List PxRow) :
    List.Pairwise (fun a b : SignalRow => a.ts ≤ b.ts) (build_signal sm ex px) := by
  have hd : List.Pairwise (fun a b : ℤ => a ≤ b) (join_dates sm ex px) :=
    List.sorted_insertionSort _ _
  simp only [build_signal]
  rw [List.pairwise_iff_getElem]
  intro i j hi hj hij
  simp only [List.length_map, List.length_range] at hi hj
  simp only [List.getElem_map, List.getElem_range]
  show (join_dates sm ex px).getD i 0 ≤ (join_dates sm ex px).getD j 0
  rw [List.getD_eq_getElem?_getD, List.getD_eq_getElem?_getD,
    List.getElem?_eq_getElem hi, List.getElem?_eq_getElem hj]
  exact List.pairwise_iff_getElem.mp hd i j hi hj hij

/-- In a date-sorted signal table the last row has the maximum date. -/
theorem ts_le_of_getLast?_pairwise (l : List SignalRow)
    (hp : List.Pairwise (fun a b : SignalRow => a.ts ≤ b.ts) l) :
    ∀ r ∈ l, ∀ x, l.getLast? = some x → r.ts ≤ x.ts := by
  induction l with
  | nil =>
    intro r hr
    cases hr
  | cons a t ih =>
    rcases List.pairwise_cons.mp hp with ⟨ha, hp2⟩
    intro r hr x hx
    cases t with
    | nil =>
      have hra : r = a := by simpa using hr
      have hxa : x = a := by simpa using hx.symm
      simp [hra, hxa]
    | cons b t2 =>
      rw [List.getLast?_cons_cons] at hx
      rcases List.mem_cons.mp hr with hra | hrt
      · exact hra ▸ ha x (List.mem_of_getLast?_eq_some hx)
      · exact ih hp2 r hrt x hx

/-- C8: when no row of the signal table produced by `build_signal` carries
today's date, the caller's extraction falls back to the most recent row: it
observably returns (as a `some` result) the row of the table with the
maximum date. -/
theorem extract_today_row_fallback_max (sm : List SMRow) (ex : List ExRow)
    (px : List PxRow) (today : ℤ)
    (hne : build_signal sm ex px ≠ [])
    (habsent : ∀ r ∈ build_signal sm ex px, r.ts ≠ today) :
    ∃ r, extract_today_row (build_signal sm ex px) today = some r ∧
      r ∈ build_signal sm ex px ∧
      ∀ r2 ∈ build_signal sm ex px, r2.ts ≤ r.ts := by
  have hfilter : (build_signal sm ex px).filter (fun r => r.ts == today) = [] := by
    rw [List.filter_eq_nil_iff]
    intro r hr
    simpa using habsent r hr
  obtain ⟨x, hx⟩ := Option.isSome_iff_exists.mp (List.getLast?_isSome.mpr hne)
  refine ⟨x, ?_, List.mem_of_getLast?_eq_some hx, ?_⟩
  · simp only [extract_today_row]
    rw [hfilter]
    simpa using hx
  · intro r2 hr2
    exact ts_le_of_getLast?_pairwise (build_signal sm ex px)
      (build_signal_ts_sorted sm ex px) r2 hr2 x hx

/-- Witness for C8 on a one-day price series whose single date is not
today. -/
theorem extract_today_row_fallback_max_witness :
    (build_signal [] [] [{ ts := 0, price_usd := 100 }] ≠ [] ∧
      ∀ r ∈ build_signal [] [] [{ ts := 0, price_usd := 100 }], r.ts ≠ 1) ∧
    ∃ r, extract_today_row (build_signal [] [] [{ ts := 0, price_usd := 100 }]) 1
        = some r ∧
      r ∈ build_signal [] [] [{ ts := 0, price_usd := 100 }] ∧
      ∀ r2 ∈ build_signal [] [] [{ ts := 0, price_usd := 100 }], r2.ts ≤ r.ts :=
  ⟨⟨by decide, by decide⟩,
    extract_today_row_fallback_max [] [] [{ ts := 0, price_usd := 100 }] 1
      (by decide) (by decide)⟩

/-- C9: every row of `build_signal`'s output carries non-null values in all
four z-score columns (they come out of the total normalizer), so the
missing-data guard of the decision rule — null 7-day smart-money z-score
or null 7-day return — can only ever be triggered by a null 7-day return. -/
theorem build_signal_z_columns_total (sm : List SMRow) (ex : List ExRow)
    (px : List PxRow) :
    ∀ row ∈ build_signal sm ex px,
      row.sm_7d_z.isSome = true ∧ row.sm_30d_z.isSome = true ∧
      row.px_ret_7d_z.isSome = true ∧ row.px_ret_30d_z.isSome = true ∧
      ((row.sm_7d_z = none ∨ row.px_ret_7d = none) ↔ row.px_ret_7d = none) := by
  intro row hrow
  simp only [build_signal] at hrow
  rcases List.mem_map.mp hrow with ⟨i, hi, rfl⟩
  refine ⟨rfl, rfl, rfl, rfl, ?_⟩
  simp [signal_row]

/-- Witness for C9 on a one-day price series. -/
theorem build_signal_z_columns_total_witness :
    ({ ts := 0, volume7dUSD := none, volume30dUSD := none, exchange_flow_usd := ExCell.nan,
       price_usd := some 100, px_ret_7d := none, px_ret_30d := none,
       sm_7d_z := some 0, sm_30d_z := some 0, px_ret_7d_z := some 0,
       px_ret_30d_z := some 0, divergence_7d := 0, divergence_30d := 0,
       signal := "hold" } : SignalRow)
      ∈ build_signal [] [] [{ ts := 0, price_usd := 100 }] ∧
    (({ ts := 0, volume7dUSD := none, volume30dUSD := none, exchange_flow_usd := ExCell.nan,
        price_usd := some 100, px_ret_7d := none, px_ret_30d := none,
        sm_7d_z := some 0, sm_30d_z := some 0, px_ret_7d_z := some 0,
        px_ret_30d_z := some 0, divergence_7d := 0, divergence_30d := 0,
        signal := "hold" } : SignalRow).sm_7d_z.isSome = true ∧
      ({ ts := 0, volume7dUSD := none, volume30dUSD := none, exchange_flow_usd := ExCell.nan,
         price_usd := some 100, px_ret_7d := none, px_ret_30d := none,
         sm_7d_z := some 0, sm_30d_z := some 0, px_ret_7d_z := some 0,
         px_ret_30d_z := some 0, divergence_7d := 0, divergence_30d := 0,
         signal := "hold" } : SignalRow).sm_30d_z.isSome = true ∧
      ({ ts := 0, volume7dUSD := none, volume30dUSD := none, exchange_flow_usd := ExCell.nan,
         price_usd := some 100, px_ret_7d := none, px_ret_30d := none,
         sm_7d_z := some 0, sm_30d_z := some 0, px_ret_7d_z := some 0,
         px_ret_30d_z := some 0, divergence_7d := 0, divergence_30d := 0,
         signal := "hold" } : SignalRow).px_ret_7d_z.isSome = true ∧
      ({ ts := 0, volume7dUSD := none, volume30dUSD := none, exchange_flow_usd := ExCell.nan,
         price_usd := some 100, px_ret_7d := none, px_ret_30d := none,
         sm_7d_z := some 0, sm_30d_z := some 0, px_ret_7d_z := some 0,
         px_ret_30d_z := some 0, divergence_7d := 0, divergence_30d := 0,
         signal := "hold" } : SignalRow).px_ret_30d_z.isSome = true ∧
      ((({ ts := 0, volume7dUSD := none, volume30dUSD := none, exchange_flow_usd := ExCell.nan,
           price_usd := some 100, px_ret_7d := none, px_ret_30d := none,
           sm_7d_z := some 0, sm_30d_z := some 0, px_ret_7d_z := some 0,
           px_ret_30d_z := some 0, divergence_7d := 0, divergence_30d := 0,
           signal := "hold" } : SignalRow).sm_7d_z = none ∨
        ({ ts := 0, volume7dUSD := none, volume30dUSD := none, exchange_flow_usd := ExCell.nan,
           price_usd := some 100, px_ret_7d := none, px_ret_30d := none,
           sm_7d_z := some 0, sm_30d_z := some 0, px_ret_7d_z := some 0,
           px_ret_30d_z := some 0, divergence_7d := 0, divergence_30d := 0,
           signal := "hold" } : SignalRow).px_ret_7d = none) ↔
        ({ ts := 0, volume7dUSD := none, volume30dUSD := none, exchange_flow_usd := ExCell.nan,
           price_usd := some 100, px_ret_7d := none, px_ret_30d := none,
           sm_7d_z := some 0, sm_30d_z := some 0, px_ret_7d_z := some 0,
           px_ret_30d_z := some 0, divergence_7d := 0, divergence_30d := 0,
           signal := "hold" } : SignalRow).px_ret_7d = none)) :=
  ⟨by decide,
    build_signal_z_columns_total [] [] [{ ts := 0, price_usd := 100 }] _ (by decide)⟩

end Nansen
